import Mathlib

/-!
Verification of the Snakes & Ladders board-mapping code.

Shallow embedding conventions:
* JavaScript numbers are embedded as exact rationals (`ℚ`); integer-valued
  quantities (cell numbers, grid coordinates, pixel indices) as `ℤ` or `ℕ`.
  Decimal literals of the source (`0.4`, `1e-6`, ...) are embedded as the
  exact rationals they denote.
* `Math.floor (a / b)` for an integer `b > 0` is `Int.ediv` (floor division);
  the JS `%` operator is only applied to non-negative operands in this code,
  where it agrees with `Int.emod`.
* JS objects with integer keys are embedded as association lists with
  distinct keys; `obj[k] = v` is an order-preserving overwrite/append.
* Fallible operations (image loading, JSON parsing) are embedded with
  `Except`/`Option` carrying the outcome the JS callback would observe.
-/

/- `Rat.add` and friends are `@[irreducible]` in core; the evaluation
theorems below reduce concrete runs of the embedded code, so we unseal them
for elaboration (kernel checking is unaffected). -/
unseal Rat.add Rat.mul Rat.sub Rat.inv

set_option maxRecDepth 100000
set_option maxHeartbeats 4000000

namespace SnL

/-- `Math.abs` on the embedded numbers. -/
def jsAbs (q : ℚ) : ℚ := if q < 0 then -q else q

/-! ## Boustrophedon indexer, `snakesAndLaddersConfig.js` -/

/-- `getRowColFromCell` from `snakesAndLaddersConfig.js`: clamp the cell to
`[1,100]`, then convert to a top-based `(row, col)` pair. -/
def getRowColFromCell (cell : ℤ) : ℤ × ℤ :=
  let c1 := if cell < 1 then 1 else cell
  let c2 := if c1 > 100 then 100 else c1
  let indexFromZero := c2 - 1
  let bottomRowIndex := indexFromZero / 10
  let row := 9 - bottomRowIndex
  let inRowIdx := indexFromZero % 10
  let col := if bottomRowIndex % 2 = 0 then inRowIdx else 9 - inRowIdx
  (row, col)

/-- `getCellFromRowCol` from `snakesAndLaddersConfig.js`. -/
def getCellFromRowCol (row col : ℤ) : ℤ :=
  let bottomRowIndex := 9 - row
  let inRowIdx := if bottomRowIndex % 2 = 0 then col else 9 - col
  bottomRowIndex * 10 + inRowIdx + 1

/-! ## Boustrophedon indexer, `boardMapping.js` -/

/-- `boustrophedonIndexFromRowCol` from `boardMapping.js`. -/
def boustrophedonIndexFromRowCol (row col : ℤ) : ℤ :=
  let bottomRowIndex := 9 - row
  let inRowIdx := if bottomRowIndex % 2 = 0 then col else 9 - col
  bottomRowIndex * 10 + inRowIdx + 1

/-- `rowColFromIndex` from `boardMapping.js`: clamp via `min`/`max`, then
convert to a top-based `(row, col)` pair. -/
def rowColFromIndex (index : ℤ) : ℤ × ℤ :=
  let cell := min 100 (max 1 index)
  let zero := cell - 1
  let bottomRowIndex := zero / 10
  let inRowIdx := zero % 10
  let row := 9 - bottomRowIndex
  let col := if bottomRowIndex % 2 = 0 then inRowIdx else 9 - inRowIdx
  (row, col)

/-! ## Bilinear solver, `boardMapping.js`

Pixel points and the bilinear coefficient record
`x = a0 + a1·u + a2·v + a3·u·v`, `y = b0 + b1·u + b2·v + b3·u·v`. -/

/-- An image-pixel point `{x, y}`. -/
structure Pt where
  x : ℚ
  y : ℚ
deriving DecidableEq

/-- The bilinear coefficient record built by `homographyFromUnitSquareToQuad`. -/
structure BL where
  a0 : ℚ
  a1 : ℚ
  a2 : ℚ
  a3 : ℚ
  b0 : ℚ
  b1 : ℚ
  b2 : ℚ
  b3 : ℚ
deriving DecidableEq

/-- Entry `M[r][c]` of a row-list matrix (out-of-range reads never occur in
the modelled runs; they default to 0). -/
def lget (M : List (List ℚ)) (r c : ℕ) : ℚ := (M.getD r []).getD c 0

/-- Assignment `M[r][c] = q`. -/
def lset (M : List (List ℚ)) (r c : ℕ) (q : ℚ) : List (List ℚ) :=
  M.set r ((M.getD r []).set c q)

/-- The row swap `tmp = M[i]; M[i] = M[maxRow]; M[maxRow] = tmp`. -/
def lswap (M : List (List ℚ)) (i j : ℕ) : List (List ℚ) :=
  let ri := M.getD i []
  let rj := M.getD j []
  (M.set i rj).set j ri

/-- Partial-pivot search of `solveLinearSystem`: the first row index in
`[i+1, n)` whose column-`i` entry strictly exceeds the current best in
absolute value (starting from `i`). -/
def pivotSearch (M : List (List ℚ)) (i n : ℕ) : ℕ :=
  (List.range' (i + 1) (n - (i + 1))).foldl
    (fun best r => if jsAbs (lget M r i) > jsAbs (lget M best i) then r else best) i

/-- `for (c = i; c <= n; c++) M[i][c] /= pivot`. -/
def scaleRow (M : List (List ℚ)) (i n : ℕ) (pivot : ℚ) : List (List ℚ) :=
  (List.range' i (n + 1 - i)).foldl (fun M c => lset M i c (lget M i c / pivot)) M

/-- `factor = M[r][i]; for (c = i; c <= n; c++) M[r][c] -= factor * M[i][c]`. -/
def elimRow (M : List (List ℚ)) (i r n : ℕ) : List (List ℚ) :=
  let factor := lget M r i
  (List.range' i (n + 1 - i)).foldl (fun M c => lset M r c (lget M r c - factor * lget M i c)) M

/-- One outer iteration of the Gaussian elimination in `solveLinearSystem`:
pivot search, row swap, `pivot = M[i][i] || 1e-12`, scaling, elimination. -/
def gaussStep (n : ℕ) (M : List (List ℚ)) (i : ℕ) : List (List ℚ) :=
  let M1 := lswap M i (pivotSearch M i n)
  let pivot := if lget M1 i i = 0 then 1 / 1000000000000 else lget M1 i i
  let M2 := scaleRow M1 i n pivot
  (List.range n).foldl (fun M r => if r = i then M else elimRow M i r n) M2

/-- `solveLinearSystem` from `boardMapping.js`: Gaussian elimination with
partial pivoting on the augmented matrix `[A | b]`, returning column `n`. -/
def solveLinearSystem (A : List (List ℚ)) (b : List ℚ) : List ℚ :=
  let n := A.length
  let M0 := (List.range n).map (fun i => A.getD i [] ++ [b.getD i 0])
  let M := (List.range n).foldl (gaussStep n) M0
  (List.range n).map (fun i => lget M i n)

/-- `homographyFromUnitSquareToQuad` from `boardMapping.js`: solves the 8×8
system for the bilinear coefficients (the unused `dx1…h` locals of the source
do not feed into the result and are omitted). The comment rows of the source
matrix claim `(u=0,v=0) -> bl` etc.; the matrix itself is embedded verbatim. -/
def homographyFromUnitSquareToQuad (bl br tr tl : Pt) : BL :=
  let A : List (List ℚ) :=
    [[1, 0, 0, 0, 1, 0, 0, 0],
     [1, 1, 0, 0, 0, 0, 0, 0],
     [1, 1, 1, 1, 0, 0, 0, 0],
     [1, 0, 1, 0, 0, 0, 0, 0],
     [0, 0, 0, 0, 1, 0, 0, 0],
     [0, 0, 0, 0, 1, 1, 0, 0],
     [0, 0, 0, 0, 1, 1, 1, 1],
     [0, 0, 0, 0, 1, 0, 1, 0]]
  let b := [bl.x, br.x, tr.x, tl.x, bl.y, br.y, tr.y, tl.y]
  let c := solveLinearSystem A b
  ⟨c.getD 0 0, c.getD 1 0, c.getD 2 0, c.getD 3 0,
   c.getD 4 0, c.getD 5 0, c.getD 6 0, c.getD 7 0⟩

/-- The `det || 1e-12` guard of `invertBilinear` (`0` is the only falsy `ℚ`). -/
def guardDet (d : ℚ) : ℚ := if d = 0 then 1 / 1000000000000 else d

/-- The Newton displacement `(du, dv)` computed by one loop body of
`invertBilinear` at the current guess `(u, v)` for target `(x, y)`. -/
def newtonDelta (H : BL) (x y u v : ℚ) : ℚ × ℚ :=
  let fx := H.a0 + H.a1 * u + H.a2 * v + H.a3 * u * v - x
  let fy := H.b0 + H.b1 * u + H.b2 * v + H.b3 * u * v - y
  let j11 := H.a1 + H.a3 * v
  let j12 := H.a2 + H.a3 * u
  let j21 := H.b1 + H.b3 * v
  let j22 := H.b2 + H.b3 * u
  let det := guardDet (j11 * j22 - j12 * j21)
  ((-fx * j22 + fy * j12) / det, (-fy * j11 + fx * j21) / det)

/-- One full loop body of `invertBilinear`: `u -= du; v -= dv`. -/
def newtonStep (H : BL) (x y : ℚ) (p : ℚ × ℚ) : ℚ × ℚ :=
  let d := newtonDelta H x y p.1 p.2
  (p.1 - d.1, p.2 - d.2)

/-- The step size `|du| + |dv|` tested by the early-exit condition. -/
def newtonStepSize (H : BL) (x y : ℚ) (p : ℚ × ℚ) : ℚ :=
  jsAbs (newtonDelta H x y p.1 p.2).1 + jsAbs (newtonDelta H x y p.1 p.2).2

/-- The `for (k = 0; k < 20; k++)` loop of `invertBilinear` with fuel:
apply the update, then break once `|du| + |dv| < 1e-6`. -/
def invertBilinearGo (H : BL) (x y : ℚ) : ℕ → ℚ × ℚ → ℚ × ℚ
  | 0, p => p
  | k + 1, p =>
    let d := newtonDelta H x y p.1 p.2
    let p' := (p.1 - d.1, p.2 - d.2)
    if jsAbs d.1 + jsAbs d.2 < 1 / 1000000 then p' else invertBilinearGo H x y k p'

/-- `invertBilinear` from `boardMapping.js`: at most 20 Newton iterations
from the fixed initial guess `(0.5, 0.5)`. -/
def invertBilinear (H : BL) (x y : ℚ) : ℚ × ℚ :=
  invertBilinearGo H x y 20 (1 / 2, 1 / 2)

/-- `k` full Newton updates with no early exit (used to characterise the
trace of `invertBilinear`). -/
def newtonIter (H : BL) (x y : ℚ) : ℕ → ℚ × ℚ → ℚ × ℚ
  | 0, p => p
  | k + 1, p => newtonIter H x y k (newtonStep H x y p)

/-- `bilinearInterpolateQuad` from `boardMapping.js`: the forward bilinear
interpolation of the four corners at `(u, v)`. -/
def bilinearInterpolateQuad (bl br tr tl : Pt) (u v : ℚ) : ℚ × ℚ :=
  (bl.x * (1 - u) * (1 - v) + br.x * u * (1 - v) + tr.x * u * v + tl.x * (1 - u) * v,
   bl.y * (1 - u) * (1 - v) + br.y * u * (1 - v) + tr.y * u * v + tl.y * (1 - u) * v)

/-! ## Square-center generation, `boardMapping.js` -/

/-- One record of the center table: `{cell, x, y, u, v}`. -/
structure CenterEntry where
  cell : ℤ
  x : ℚ
  y : ℚ
  u : ℚ
  v : ℚ
deriving DecidableEq

/-- The `(dx, dy)` computed by one body of the secondary refinement loop in
`buildSquareCentersFromCorners` (numeric gradient with `eps = 1e-3`,
determinant guard `|| 1e-9`); `H.mapPoint` is `invertBilinear H`. -/
def refineDelta (H : BL) (u v x y : ℚ) : ℚ × ℚ :=
  let mapped := invertBilinear H x y
  let du := mapped.1 - u
  let dv := mapped.2 - v
  let eps : ℚ := 1 / 1000
  let m1 := invertBilinear H (x + eps) y
  let m2 := invertBilinear H x (y + eps)
  let gux := (m1.1 - mapped.1) / eps
  let guy := (m2.1 - mapped.1) / eps
  let gvx := (m1.2 - mapped.2) / eps
  let gvy := (m2.2 - mapped.2) / eps
  let det0 := gux * gvy - guy * gvx
  let det := if det0 = 0 then 1 / 1000000000 else det0
  ((-du * gvy + dv * guy) / det, (-dv * gux + du * gvx) / det)

/-- The `for (k = 0; k < 10; k++)` refinement loop of
`buildSquareCentersFromCorners`: `x -= dx; y -= dy`, break once
`|dx| + |dy| < 1e-3`. -/
def refineGo (H : BL) (u v : ℚ) : ℕ → ℚ × ℚ → ℚ × ℚ
  | 0, p => p
  | k + 1, p =>
    let d := refineDelta H u v p.1 p.2
    let p' := (p.1 - d.1, p.2 - d.2)
    if jsAbs d.1 + jsAbs d.2 < 1 / 1000 then p' else refineGo H u v k p'

/-- The loop body of `buildSquareCentersFromCorners` for one `(row, col)`:
cell number, intended normalized center, bilinear initial guess, and the
10-iteration Newton refinement against `H.mapPoint`. -/
def squareCenterEntry (bl br tr tl : Pt) (row col : ℕ) : CenterEntry :=
  let cell := boustrophedonIndexFromRowCol (row : ℤ) (col : ℤ)
  let u : ℚ := ((col : ℚ) + 1 / 2) / 10
  let v : ℚ := ((row : ℚ) + 1 / 2) / 10
  let H := homographyFromUnitSquareToQuad bl br tr tl
  let guess := bilinearInterpolateQuad bl br tr tl u v
  let p := refineGo H u v 10 guess
  ⟨cell, p.1, p.2, u, v⟩

/-- `buildSquareCentersFromCorners` from `boardMapping.js`: for a 4-corner
list, the 100 center records in row-major `(row, col)` push order; any other
corner list yields `[]`. `width`/`height` are accepted but unused, as in the
source. -/
def buildSquareCentersFromCorners (corners : List Pt) (width height : ℚ) :
    List CenterEntry :=
  match corners with
  | [bl, br, tr, tl] =>
    (List.range 10).flatMap fun row =>
      (List.range 10).map fun col => squareCenterEntry bl br tr tl row col
  | _ => []

/-- C1: on `[1,100]` the cell→(row,col) conversion is inverted by
(row,col)→cell, and on `[0,9]²` the converse round-trip is the identity. -/
theorem boustrophedon_bijection :
    (∀ cell : ℤ, 1 ≤ cell → cell ≤ 100 →
      getCellFromRowCol (getRowColFromCell cell).1 (getRowColFromCell cell).2 = cell) ∧
    (∀ row col : ℤ, 0 ≤ row → row ≤ 9 → 0 ≤ col → col ≤ 9 →
      getRowColFromCell (getCellFromRowCol row col) = (row, col)) := by
  constructor
  · intro cell h1 h100
    simp only [getRowColFromCell, getCellFromRowCol]
    split_ifs <;> omega
  · intro row col hr0 hr9 hc0 hc9
    simp only [getRowColFromCell, getCellFromRowCol, Prod.mk.injEq]
    split_ifs <;> omega

/-- C1 witness at `cell = 37` and `(row, col) = (3, 4)`. -/
theorem boustrophedon_bijection_witness :
    getCellFromRowCol (getRowColFromCell 37).1 (getRowColFromCell 37).2 = 37 ∧
    getRowColFromCell (getCellFromRowCol 3 4) = (3, 4) :=
  ⟨boustrophedon_bijection.1 37 (by decide) (by decide),
   boustrophedon_bijection.2 3 4 (by decide) (by decide) (by decide) (by decide)⟩

/-- C9: the cell→(row,col) conversion clamps out-of-range input: the result
always lies in `[0,9]²`, input below 1 behaves like cell 1, input above 100
behaves like cell 100. -/
theorem getRowColFromCell_clamps (cell : ℤ) :
    (0 ≤ (getRowColFromCell cell).1 ∧ (getRowColFromCell cell).1 ≤ 9 ∧
     0 ≤ (getRowColFromCell cell).2 ∧ (getRowColFromCell cell).2 ≤ 9) ∧
    (cell < 1 → getRowColFromCell cell = getRowColFromCell 1) ∧
    (cell > 100 → getRowColFromCell cell = getRowColFromCell 100) := by
  simp only [getRowColFromCell, Prod.mk.injEq]
  split_ifs <;> omega

/-- C9 witness: bounds at cell `-7`, and the clamping equations at `-7`
and `345`. -/
theorem getRowColFromCell_clamps_witness :
    (0 ≤ (getRowColFromCell (-7)).1 ∧ (getRowColFromCell (-7)).1 ≤ 9 ∧
     0 ≤ (getRowColFromCell (-7)).2 ∧ (getRowColFromCell (-7)).2 ≤ 9) ∧
    getRowColFromCell (-7) = getRowColFromCell 1 ∧
    getRowColFromCell 345 = getRowColFromCell 100 :=
  ⟨(getRowColFromCell_clamps (-7)).1,
   (getRowColFromCell_clamps (-7)).2.1 (by decide),
   (getRowColFromCell_clamps 345).2.2 (by decide)⟩

/-- C10: the two boustrophedon implementations (config module vs. board
mapping module) agree on every integer input, in both directions. -/
theorem boustrophedon_implementations_agree :
    (∀ cell : ℤ, getRowColFromCell cell = rowColFromIndex cell) ∧
    (∀ row col : ℤ, getCellFromRowCol row col = boustrophedonIndexFromRowCol row col) := by
  constructor
  · intro cell
    simp only [getRowColFromCell, rowColFromIndex, Prod.mk.injEq]
    have hmm : min 100 (max 1 cell) =
        if (if cell < 1 then (1 : ℤ) else cell) > 100 then 100
        else if cell < 1 then 1 else cell := by
      split_ifs <;> omega
    rw [hmm]
    split_ifs <;> omega
  · intro row col
    rfl


/-! ## Claims C2, C3, C8: the Newton inverse and the center table -/

/-- The square calibration quad of the spec's test property, in source corner
order bottom-left, bottom-right, top-right, top-left. -/
def squareQuadCorners : List Pt := [⟨0, 100⟩, ⟨100, 100⟩, ⟨100, 0⟩, ⟨0, 0⟩]

/-- Definitional unfolding of one loop iteration of `invertBilinear`. -/
theorem invertBilinearGo_succ (H : BL) (x y : ℚ) (k : ℕ) (p : ℚ × ℚ) :
    invertBilinearGo H x y (k + 1) p =
      if newtonStepSize H x y p < 1 / 1000000 then newtonStep H x y p
      else invertBilinearGo H x y k (newtonStep H x y p) := rfl

/-- Trace characterisation of the `invertBilinear` loop: with fuel `n ≥ 1` it
performs between 1 and `n` full Newton updates, and if it stops before
exhausting the fuel then the step that was just applied was smaller than the
`1e-6` tolerance. -/
theorem invertBilinearGo_trace (H : BL) (x y : ℚ) :
    ∀ n : ℕ, 1 ≤ n → ∀ p : ℚ × ℚ,
      ∃ m : ℕ, 1 ≤ m ∧ m ≤ n ∧
        invertBilinearGo H x y n p = newtonIter H x y m p ∧
        (m = n ∨ newtonStepSize H x y (newtonIter H x y (m - 1) p) < 1 / 1000000) := by
  intro n
  induction n with
  | zero => intro h; exact absurd h (by omega)
  | succ k ih =>
    intro _ p
    rw [invertBilinearGo_succ]
    by_cases hstop : newtonStepSize H x y p < 1 / 1000000
    · refine ⟨1, le_refl 1, by omega, ?_, Or.inr ?_⟩
      · rw [if_pos hstop]; rfl
      · exact hstop
    · rw [if_neg hstop]
      rcases Nat.eq_zero_or_pos k with hk | hk
      · subst hk
        exact ⟨1, le_refl 1, by omega, rfl, Or.inl rfl⟩
      · obtain ⟨m, hm1, hmk, heq, hstop'⟩ := ih hk (newtonStep H x y p)
        refine ⟨m + 1, by omega, by omega, ?_, ?_⟩
        · rw [heq]; rfl
        · rcases hstop' with h | h
          · exact Or.inl (by omega)
          · refine Or.inr ?_
            have hm : m - 1 + 1 = m := by omega
            rw [show m + 1 - 1 = m from rfl, ← hm]
            exact h

/-- C8: `invertBilinear` starts from `(0.5, 0.5)`, performs at most 20
Newton updates with early exit below the `1e-6` combined step size, and its
guarded Jacobian-determinant divisor is never zero. -/
theorem invertBilinear_newton_contract (H : BL) (x y : ℚ) :
    (∀ d : ℚ, guardDet d ≠ 0) ∧
    ∃ m : ℕ, 1 ≤ m ∧ m ≤ 20 ∧
      invertBilinear H x y = newtonIter H x y m (1 / 2, 1 / 2) ∧
      (m = 20 ∨
        newtonStepSize H x y (newtonIter H x y (m - 1) (1 / 2, 1 / 2)) < 1 / 1000000) := by
  refine ⟨fun d => ?_, invertBilinearGo_trace H x y 20 (by omega) (1 / 2, 1 / 2)⟩
  unfold guardDet
  split_ifs with h
  · norm_num
  · exact h

/-- C3: on the square quad the forward bilinear interpolation does send
`(0.5, 0.5)` to `(50, 50)`, but the Newton inverse applied to pixel
`(50, 50)` returns `(-174762, 1/2)` — about `1.7·10^5` away from the claimed
`(0.5, 0.5)` — because the update is applied with the wrong sign, so the
iteration diverges instead of converging. -/
theorem invertBilinear_at_50_50_diverges :
    bilinearInterpolateQuad ⟨0, 100⟩ ⟨100, 100⟩ ⟨100, 0⟩ ⟨0, 0⟩ (1 / 2) (1 / 2) = (50, 50) ∧
    invertBilinear (homographyFromUnitSquareToQuad ⟨0, 100⟩ ⟨100, 100⟩ ⟨100, 0⟩ ⟨0, 0⟩)
      50 50 = (-174762, 1 / 2) := by
  constructor
  · decide
  · decide

/-- C2: in the center table built for the square quad, the entry for cell 1
lies more than `10^6` (in `x`) and `10^4` (in `y`) away from the claimed
center `(5, 95)`, and the entry for cell 100 lies more than `10^5`/`10^4`
away from the claimed `(95, 5)`: the `v` orientation is flipped and the
divergent Newton refinement drives the points off the board. -/
theorem buildSquareCenters_far_from_claimed :
    (∃ e ∈ buildSquareCentersFromCorners squareQuadCorners 100 100,
      e.cell = 1 ∧ e.x < -1000000 ∧ e.y < -10000) ∧
    (∃ e ∈ buildSquareCentersFromCorners squareQuadCorners 100 100,
      e.cell = 100 ∧ e.x > 100000 ∧ e.y > 10000) := by
  constructor
  · refine ⟨squareCenterEntry ⟨0, 100⟩ ⟨100, 100⟩ ⟨100, 0⟩ ⟨0, 0⟩ 9 0, ?_, ?_⟩
    · exact List.mem_flatMap.2 ⟨9, by decide, List.mem_map.2 ⟨0, by decide, rfl⟩⟩
    · decide
  · refine ⟨squareCenterEntry ⟨0, 100⟩ ⟨100, 100⟩ ⟨100, 0⟩ ⟨0, 0⟩ 0 0, ?_, ?_⟩
    · exact List.mem_flatMap.2 ⟨0, by decide, List.mem_map.2 ⟨0, by decide, rfl⟩⟩
    · decide

/-! ## `dedupeMapping`, `autoMap.js`

JS objects with integer keys are embedded as association lists of entries;
the keys of an actual JS object are distinct, but the definitions below are
faithful for arbitrary entry lists (grouping candidates per key exactly as
`Object.entries` + the grouping loop would). -/

/-- `Math.abs` on embedded integer quantities. -/
def jsAbsZ (n : ℤ) : ℤ := if n < 0 then -n else n

/-- The candidate targets `grouped[s]` collected for source cell `s`, in
entry order. -/
def candidates (s : ℤ) (l : List (ℤ × ℤ)) : List ℤ :=
  (l.filter (fun p => p.1 == s)).map Prod.snd

/-- The `keep the one with max absolute delta` selection of `dedupeMapping`
(`best = cands[0]`, strict improvement, so the first maximal span wins). -/
def pickBest (s : ℤ) (cands : List ℤ) : ℤ :=
  match cands with
  | [] => 0
  | c :: _ =>
    cands.foldl (fun best e => if jsAbsZ (e - s) > jsAbsZ (best - s) then e else best) c

/-- `Object.keys` of an embedded object: the distinct source cells. -/
def objKeys (l : List (ℤ × ℤ)) : List ℤ := (l.map Prod.fst).dedup

/-- `dedupeMapping` from `autoMap.js`: per source cell keep the max-span
candidate, then delete entries violating the direction invariant
(`isLadder` keeps `target > source`, snakes keep `target < source`). -/
def dedupeMapping (isLadder : Bool) (l : List (ℤ × ℤ)) : List (ℤ × ℤ) :=
  ((objKeys l).map (fun s => (s, pickBest s (candidates s l)))).filter
    (fun p => if isLadder then decide (p.1 < p.2) else decide (p.2 < p.1))

/-- The max-span fold always returns its seed or a list element. -/
theorem pickBest_foldl_mem (s : ℤ) :
    ∀ (l : List ℤ) (b : ℤ),
      l.foldl (fun best e => if jsAbsZ (e - s) > jsAbsZ (best - s) then e else best) b ∈
        b :: l := by
  intro l
  induction l with
  | nil => intro b; simp
  | cons e l ih =>
    intro b
    simp only [List.foldl_cons]
    rcases List.mem_cons.1 (ih (if jsAbsZ (e - s) > jsAbsZ (b - s) then e else b)) with h | h
    · rw [h]
      split_ifs
      · exact List.mem_cons_of_mem _ (List.mem_cons_self _ _)
      · exact List.mem_cons_self _ _
    · exact List.mem_cons_of_mem _ (List.mem_cons_of_mem _ h)

/-- The max-span fold dominates its seed and every list element. -/
theorem pickBest_foldl_le (s : ℤ) :
    ∀ (l : List ℤ) (b : ℤ),
      jsAbsZ (b - s) ≤
          jsAbsZ
            (l.foldl (fun best e => if jsAbsZ (e - s) > jsAbsZ (best - s) then e else best) b -
              s) ∧
        ∀ e ∈ l,
          jsAbsZ (e - s) ≤
            jsAbsZ
              (l.foldl (fun best e => if jsAbsZ (e - s) > jsAbsZ (best - s) then e else best) b -
                s) := by
  intro l
  induction l with
  | nil => intro b; exact ⟨le_refl _, by simp⟩
  | cons e l ih =>
    intro b
    simp only [List.foldl_cons]
    obtain ⟨hseed, hall⟩ := ih (if jsAbsZ (e - s) > jsAbsZ (b - s) then e else b)
    constructor
    · refine le_trans ?_ hseed
      split_ifs with hgt
      · simp only [jsAbsZ] at hgt ⊢
        split_ifs at hgt ⊢ <;> omega
      · exact le_refl _
    · intro e' he'
      rcases List.mem_cons.1 he' with h | h
      · subst h
        refine le_trans ?_ hseed
        split_ifs with hgt
        · exact le_refl _
        · simp only [jsAbsZ] at hgt ⊢
          split_ifs at hgt ⊢ <;> omega
      · exact hall e' h

/-- `pickBest` on a non-empty candidate list returns a candidate of maximal
absolute span. -/
theorem pickBest_spec (s c : ℤ) (rest : List ℤ) :
    pickBest s (c :: rest) ∈ c :: rest ∧
      ∀ e ∈ c :: rest, jsAbsZ (e - s) ≤ jsAbsZ (pickBest s (c :: rest) - s) := by
  have hdef : pickBest s (c :: rest) =
      (c :: rest).foldl (fun best e => if jsAbsZ (e - s) > jsAbsZ (best - s) then e else best)
        c := rfl
  constructor
  · rw [hdef]
    rcases List.mem_cons.1 (pickBest_foldl_mem s (c :: rest) c) with h' | h'
    · rw [h']; exact List.mem_cons_self _ _
    · exact h'
  · rw [hdef]
    exact (pickBest_foldl_le s (c :: rest) c).2

/-- C5: every entry surviving `dedupeMapping` pairs a source with one of its
original candidate targets, of maximal absolute span; the direction
invariant holds for all survivors (ladders strictly up, snakes strictly
down); and each source retains at most one entry. -/
theorem dedupeMapping_spec (isLadder : Bool) (l : List (ℤ × ℤ)) (s t : ℤ)
    (h : (s, t) ∈ dedupeMapping isLadder l) :
    t ∈ candidates s l ∧
    (∀ e ∈ candidates s l, jsAbsZ (e - s) ≤ jsAbsZ (t - s)) ∧
    (isLadder = true → s < t) ∧
    (isLadder = false → t < s) ∧
    ((dedupeMapping isLadder l).map Prod.fst).Nodup := by
  obtain ⟨hmem, hdir⟩ := List.mem_filter.1 h
  obtain ⟨s', hs', heq⟩ := List.mem_map.1 hmem
  rw [Prod.mk.injEq] at heq
  obtain ⟨rfl, ht⟩ := heq
  have hKeys : s' ∈ l.map Prod.fst := List.mem_dedup.1 hs'
  obtain ⟨p, hp, hpfst⟩ := List.mem_map.1 hKeys
  have hCand : p.2 ∈ candidates s' l :=
    List.mem_map.2 ⟨p, List.mem_filter.2 ⟨hp, by simp [hpfst]⟩, rfl⟩
  rcases hcs : candidates s' l with _ | ⟨c, rest⟩
  · rw [hcs] at hCand
    exact absurd hCand (List.not_mem_nil _)
  · obtain ⟨hmemP, hleP⟩ := pickBest_spec s' c rest
    refine ⟨?_, ?_, ?_, ?_, ?_⟩
    · rw [← ht, hcs]
      exact hmemP
    · rw [← ht, hcs]
      exact hleP
    · intro hl
      subst hl
      simpa using hdir
    · intro hl
      subst hl
      simpa using hdir
    · have h1 : List.Sublist (dedupeMapping isLadder l)
          ((objKeys l).map (fun a => (a, pickBest a (candidates a l)))) :=
        List.filter_sublist _
      have h2 := h1.map Prod.fst
      have h3 : (((objKeys l).map (fun a => (a, pickBest a (candidates a l)))).map Prod.fst)
          = objKeys l := by
        rw [List.map_map]
        exact (List.map_congr_left fun a _ => rfl).trans (List.map_id _)
      rw [h3] at h2
      exact List.Nodup.sublist h2 (List.nodup_dedup _)

/-- C5 witness: for the candidate ladder list `{5:20, 5:12}` the survivor
`(5, 20)` is the max-span candidate and satisfies the full contract. -/
theorem dedupeMapping_spec_witness :
    ((5, 20) ∈ dedupeMapping true [(5, 20), (5, 12)]) ∧
    (20 ∈ candidates 5 [(5, 20), (5, 12)] ∧
      (∀ e ∈ candidates 5 [(5, 20), (5, 12)], jsAbsZ (e - 5) ≤ jsAbsZ (20 - 5)) ∧
      (true = true → (5 : ℤ) < 20) ∧
      (true = false → (20 : ℤ) < 5) ∧
      ((dedupeMapping true [(5, 20), (5, 12)]).map Prod.fst).Nodup) :=
  ⟨by decide, dedupeMapping_spec true [(5, 20), (5, 12)] 5 20 (by decide)⟩

/-! ## Mapping read paths, `boardMapping.js` (C7)

`JSON.parse` itself is a platform primitive; the read paths are embedded as
functions of its outcome (`Except` error = the exception the JS code would
catch or forward). -/

/-- A parsed JSON value — the possible results of `JSON.parse`. -/
inductive Js where
  | null
  | bool (b : Bool)
  | num (q : ℚ)
  | str (s : String)
  | arr (elems : List Js)
  | obj (fields : List (String × Js))

/-- JS truthiness of a parsed JSON value (`NaN`/`undefined` cannot result
from `JSON.parse`). -/
def Js.truthy : Js → Bool
  | .null => false
  | .bool b => b
  | .num q => !(q == 0)
  | .str s => !(s == "")
  | .arr _ => true
  | .obj _ => true

/-- `typeof v === "object"` for a parsed JSON value. -/
def Js.typeofObject : Js → Bool
  | .null => true
  | .arr _ => true
  | .obj _ => true
  | _ => false

/-- Property access `v.version`: only objects carry fields; on the other
parse results the access yields `undefined`. -/
def Js.version : Js → Option Js
  | .obj fields => fields.lookup "version"
  | _ => none

/-- The shared validation `obj && typeof obj === "object" &&
obj.version === 1` of both read paths. -/
def validMappingDoc (j : Js) : Bool :=
  j.truthy && j.typeofObject &&
    (match j.version with
     | some (.num q) => q == 1
     | _ => false)

/-- `importMappingFromFile` from `boardMapping.js`, as a function of the
read-and-parse outcome: a read error or `JSON.parse` exception is passed to
`reject` unchanged; a parsed document of the wrong shape/version is rejected
with the distinct error `"Invalid mapping format/version"`; a version-1
document is resolved unchanged. -/
def importMappingFromFile (parsed : Except String Js) : Except String Js :=
  match parsed with
  | .error e => .error e
  | .ok obj =>
    if validMappingDoc obj then .ok obj else .error "Invalid mapping format/version"

/-- `loadMappingFromLocalStorage` from `boardMapping.js`, as a function of
the stored item: `none` models `getItem` returning `null`, `some (.error e)`
a stored string on which `JSON.parse` throws (caught by the `try`),
`some (.ok j)` a parsed document. -/
def loadMappingFromLocalStorage (raw : Option (Except String Js)) : Option Js :=
  match raw with
  | none => none
  | some (.error _) => none
  | some (.ok obj) => if validMappingDoc obj then some obj else none

/-- C7 counterexample: the local-storage read path surfaces no distinct
error — a stored string on which `JSON.parse` throws yields `none`, exactly
the result for an absent item, and a wrong-version document likewise
silently becomes `none`. -/
theorem loadMapping_no_distinct_error :
    loadMappingFromLocalStorage (some (.error "SyntaxError: Unexpected token")) = none ∧
    loadMappingFromLocalStorage (some (.ok (.obj [("version", .num 2)]))) = none ∧
    loadMappingFromLocalStorage none = none := by
  refine ⟨rfl, ?_, rfl⟩
  rfl

/-- C7 (amended): the file-import path rejects a read/parse failure or an
invalid (non-object or non-version-1) document with a distinct error and
returns a parsed version-1 document unchanged; the local-storage path
accepts exactly the same documents but signals every failure — missing item,
parse error, wrong shape/version — by returning `none`, indistinguishable
from an absent mapping, rather than surfacing a distinct error. -/
theorem mapping_read_paths_validate :
    (∀ e : String, importMappingFromFile (.error e) = .error e) ∧
    (∀ j : Js, validMappingDoc j = true → importMappingFromFile (.ok j) = .ok j) ∧
    (∀ j : Js, validMappingDoc j = false →
      importMappingFromFile (.ok j) = .error "Invalid mapping format/version") ∧
    loadMappingFromLocalStorage none = none ∧
    (∀ e : String, loadMappingFromLocalStorage (some (.error e)) = none) ∧
    (∀ j : Js, validMappingDoc j = true →
      loadMappingFromLocalStorage (some (.ok j)) = some j) ∧
    (∀ j : Js, validMappingDoc j = false →
      loadMappingFromLocalStorage (some (.ok j)) = none) := by
  refine ⟨fun e => rfl, ?_, ?_, rfl, fun e => rfl, ?_, ?_⟩ <;>
    · intro j hj
      simp [importMappingFromFile, loadMappingFromLocalStorage, hj]

/-- C7 witness: a version-1 document passes both paths unchanged; a
version-2 document is rejected distinctly on import and silently dropped on
load; a document with no version tag is silently dropped on load. -/
theorem mapping_read_paths_validate_witness :
    importMappingFromFile (.ok (.obj [("version", .num 1)]))
      = .ok (.obj [("version", .num 1)]) ∧
    importMappingFromFile (.ok (.obj [("version", .num 2)]))
      = .error "Invalid mapping format/version" ∧
    loadMappingFromLocalStorage (some (.ok (.obj [("version", .num 1)])))
      = some (.obj [("version", .num 1)]) ∧
    loadMappingFromLocalStorage (some (.ok (.obj [("note", .str "x")]))) = none :=
  ⟨mapping_read_paths_validate.2.1 _ (by rfl),
   mapping_read_paths_validate.2.2.1 _ (by rfl),
   mapping_read_paths_validate.2.2.2.2.2.1 _ (by rfl),
   mapping_read_paths_validate.2.2.2.2.2.2 _ (by rfl)⟩

/-! ## Auto-detection pipeline, `autoMap.js` (C4, C6)

The image loader and canvas are platform primitives: a decoded image is its
dimensions plus the RGBA bytes `ctx.getImageData` exposes after `drawImage`,
and `autoDetectMappingFromImage` is a function of the load outcome (the only
`throw` site of the pipeline; the numeric stages are total). -/

/-- A decoded image resource. `pix x y` are the RGBA bytes at pixel
`(x, y)`. -/
structure Img where
  width : ℕ
  height : ℕ
  pix : ℕ → ℕ → ℕ × ℕ × ℕ × ℕ

/-- `Math.floor` on the embedded numbers. -/
def jsFloor (q : ℚ) : ℤ := ⌊q⌋

/-- `Math.round` on the embedded numbers (half-up, like JS). -/
def jsRound (q : ℚ) : ℤ := ⌊q + 1 / 2⌋

/-- `lum(r, g, b) = 0.299·r + 0.587·g + 0.114·b`. -/
def lum (r g b : ℕ) : ℚ := (299 * (r : ℚ) + 587 * (g : ℚ) + 114 * (b : ℚ)) / 1000

/-- The luminance plane `L[y * iw + x]`. -/
def lumAt (img : Img) (x y : ℕ) : ℚ :=
  let (r, g, b, _) := img.pix x y
  lum r g b

/-- `edgeX[x]`: accumulated `|dL/dx|` over the column, zero outside
`1 ≤ x < iw - 1` (the `Float32Array` stays zero-initialised there). -/
def edgeX (img : Img) (x : ℕ) : ℚ :=
  if 1 ≤ x ∧ x < img.width - 1 then
    (List.range img.height).foldl
      (fun s y => s + jsAbs (lumAt img (x + 1) y - lumAt img (x - 1) y)) 0
  else 0

/-- `edgeY[y]`: accumulated `|dL/dy|` over the row. -/
def edgeY (img : Img) (y : ℕ) : ℚ :=
  if 1 ≤ y ∧ y < img.height - 1 then
    (List.range img.width).foldl
      (fun s x => s + jsAbs (lumAt img x (y + 1) - lumAt img x (y - 1)) ) 0
  else 0

/-- `argMaxInRange` from `autoMap.js`: clamp `[a, b]` to the array bounds and
return the first index of the strict maximum (the `-Infinity` initial value
means the first in-range index always wins the first comparison). -/
def argMaxInRange (arr : ℕ → ℚ) (len : ℕ) (a b : ℤ) : ℤ :=
  let a' := max 0 a
  let b' := min ((len : ℤ) - 1) b
  if a' > b' then a'
  else
    let lo := a'.toNat
    let hi := b'.toNat
    (((List.range' lo (hi + 1 - lo)).foldl
        (fun (best : ℕ × Option ℚ) i =>
          match best.2 with
          | none => (i, some (arr i))
          | some v => if arr i > v then (i, some (arr i)) else best)
        (lo, none)).1 : ℤ)

/-- Boundary detection of `autoDetectMappingFromImage`: strongest edges in
the outer 20% margins, the area band for the confidence, and the 5%-inset
fallback corners for the lowest band. Returns the corner quad
`(bl, br, tr, tl)` and the boundary confidence. -/
def detectBoundary (img : Img) : (Pt × Pt × Pt × Pt) × ℚ :=
  let iw := img.width
  let ih := img.height
  let left := argMaxInRange (edgeX img) iw 0 (jsFloor ((iw : ℚ) * (1 / 5)))
  let right := argMaxInRange (edgeX img) iw (jsFloor ((iw : ℚ) * (4 / 5))) ((iw : ℤ) - 1)
  let top := argMaxInRange (edgeY img) ih 0 (jsFloor ((ih : ℚ) * (1 / 5)))
  let bottom := argMaxInRange (edgeY img) ih (jsFloor ((ih : ℚ) * (4 / 5))) ((ih : ℤ) - 1)
  let corners : Pt × Pt × Pt × Pt :=
    (⟨(left : ℚ), (bottom : ℚ)⟩, ⟨(right : ℚ), (bottom : ℚ)⟩,
     ⟨(right : ℚ), (top : ℚ)⟩, ⟨(left : ℚ), (top : ℚ)⟩)
  let area : ℚ := jsAbs (((right - left) * (bottom - top) : ℤ) : ℚ)
  if area > 2 / 5 * iw * ih then (corners, 1 / 2)
  else if area > 1 / 5 * iw * ih then (corners, 7 / 10)
  else if area > 1 / 10 * iw * ih then (corners, 3 / 5)
  else
    ((⟨(iw : ℚ) * (1 / 20), (ih : ℚ) * (19 / 20)⟩,
      ⟨(iw : ℚ) * (19 / 20), (ih : ℚ) * (19 / 20)⟩,
      ⟨(iw : ℚ) * (19 / 20), (ih : ℚ) * (1 / 20)⟩,
      ⟨(iw : ℚ) * (1 / 20), (ih : ℚ) * (1 / 20)⟩), 2 / 5)

/-- The (possibly fallback) corner list `[bl, br, tr, tl]`. -/
def detectedCorners (img : Img) : List Pt :=
  let q := (detectBoundary img).1
  [q.1, q.2.1, q.2.2.1, q.2.2.2]

/-- `boundaryConfidence` of the run. -/
def boundaryConfidence (img : Img) : ℚ := (detectBoundary img).2

/-- The center table of the run (stage 3 of the pipeline). -/
def autoCenters (img : Img) : List CenterEntry :=
  buildSquareCentersFromCorners (detectedCorners img) img.width img.height

/-- `srcPx`: clamped, rounded source-image fetch. -/
def srcPx (img : Img) (x y : ℚ) : ℕ × ℕ × ℕ × ℕ :=
  let ix := max 0 (min ((img.width : ℤ) - 1) (jsRound x))
  let iy := max 0 (min ((img.height : ℤ) - 1) (jsRound y))
  img.pix ix.toNat iy.toNat

/-- One pixel of the 200×200 normalized crop: bilinear sample of the corner
quad at `(u, v) = (x/199, y/199)` (the byte round-trip through the canvas
preserves the values; alpha is always present, so `a ?? 255` is `a`). -/
def normPix (img : Img) (x y : ℕ) : ℕ × ℕ × ℕ × ℕ :=
  let q := (detectBoundary img).1
  let p := bilinearInterpolateQuad q.1 q.2.1 q.2.2.1 q.2.2.2 ((x : ℚ) / 199) ((y : ℚ) / 199)
  srcPx img p.1 p.2

/-- The four thresholded colors, in the `Object.keys(masks)` order. -/
inductive MaskColor where
  | red
  | green
  | blue
  | yellow

/-- The raw threshold mask for one color at linear crop index `i`
(`x = i % 200`, `y = i / 200`), with the `1e-6`-guarded channel ratios. -/
def maskRaw (img : Img) (c : MaskColor) (i : ℕ) : Bool :=
  let (r, g, b, _) := normPix img (i % 200) (i / 200)
  let sum : ℚ := (r : ℚ) + (g : ℚ) + (b : ℚ) + 1 / 1000000
  let rn := (r : ℚ) / sum
  let gn := (g : ℚ) / sum
  let bn := (b : ℚ) / sum
  match c with
  | .red => decide (rn > 1 / 2) && decide (r > 80)
  | .green => decide (gn > 1 / 2) && decide (g > 80)
  | .blue => decide (bn > 1 / 2) && decide (b > 80)
  | .yellow =>
    decide (rn > 7 / 20) && decide (gn > 7 / 20) && decide (bn < 3 / 10) &&
      decide (r > 80) && decide (g > 80)

/-- Coordinate clamp `Math.max(0, Math.min(199, z))` of `morphOpen`. -/
def clamp199 (z : ℤ) : ℕ := (max 0 (min 199 z)).toNat

/-- The radius-1 offsets of the structuring element. -/
def morphOffsets : List ℤ := [-1, 0, 1]

/-- Erosion at `(x, y)`: all 9 clamped neighbours set. -/
def erodeMask (m : ℕ → Bool) (x y : ℕ) : Bool :=
  morphOffsets.all fun dy =>
    morphOffsets.all fun dx =>
      m (clamp199 ((y : ℤ) + dy) * 200 + clamp199 ((x : ℤ) + dx))

/-- Dilation at `(x, y)`: some clamped neighbour set. -/
def dilateMask (m : ℕ → Bool) (x y : ℕ) : Bool :=
  morphOffsets.any fun dy =>
    morphOffsets.any fun dx =>
      m (clamp199 ((y : ℤ) + dy) * 200 + clamp199 ((x : ℤ) + dx))

/-- `morphOpen` (erode then dilate, radius 1) at linear index `i`. -/
def morphOpen (m : ℕ → Bool) (i : ℕ) : Bool :=
  dilateMask (fun j => erodeMask m (j % 200) (j / 200)) (i % 200) (i / 200)

/-- The opened mask of one color. -/
def maskOpened (img : Img) (c : MaskColor) (i : ℕ) : Bool :=
  morphOpen (maskRaw img c) i

/-- The 8-connected neighbour offsets `(dx, dy)` in the `dy`-outer,
`dx`-inner push order of `findComponents`. -/
def neighborOffsets : List (ℤ × ℤ) :=
  [(-1, -1), (0, -1), (1, -1), (-1, 0), (1, 0), (-1, 1), (0, 1), (1, 1)]

/-- Push the unvisited in-bounds masked neighbours of `p` onto the stack,
marking them visited (the `q.push(ni)` loop body). -/
def pushNeighbors (m : ℕ → Bool) (w h p : ℕ) (st : List ℕ × (ℕ → Bool)) :
    List ℕ × (ℕ → Bool) :=
  let px := p % w
  let py := p / w
  neighborOffsets.foldl
    (fun st off =>
      let xx := (px : ℤ) + off.1
      let yy := (py : ℤ) + off.2
      if 0 ≤ xx ∧ 0 ≤ yy ∧ xx < (w : ℤ) ∧ yy < (h : ℤ) then
        let ni := yy.toNat * w + xx.toNat
        if m ni && !st.2 ni then (ni :: st.1, fun j => decide (j = ni) || st.2 j)
        else st
      else st)
    st

/-- The `while (q.length)` flood-fill loop (stack discipline: head = top).
The fuel `w * h` bounds the iteration count, since every stacked index was
freshly marked visited. -/
def floodLoop (m : ℕ → Bool) (w h : ℕ) :
    ℕ → List ℕ → (ℕ → Bool) → List ℕ → List ℕ × (ℕ → Bool)
  | 0, _, visited, pixels => (pixels.reverse, visited)
  | _ + 1, [], visited, pixels => (pixels.reverse, visited)
  | fuel + 1, p :: stack, visited, pixels =>
    let st := pushNeighbors m w h p (stack, visited)
    floodLoop m w h fuel st.1 st.2 (p :: pixels)

/-- `findComponents` from `autoMap.js`: row-major scan, flood fill from each
unvisited masked pixel, keep components of at least `minSize` pixels. -/
def findComponents (m : ℕ → Bool) (w h minSize : ℕ) : List (List ℕ) :=
  ((List.range (w * h)).foldl
      (fun (st : List (List ℕ) × (ℕ → Bool)) i =>
        if m i && !st.2 i then
          let fl := floodLoop m w h (w * h) [i] (fun j => decide (j = i) || st.2 j) []
          (if fl.1.length ≥ minSize then st.1 ++ [fl.1] else st.1, fl.2)
        else st)
      ([], fun _ => false)).1

/-- Shape statistics of one component. `len2` is the squared endpoint
distance: the source compares `length = Math.sqrt(far2D)` against 12, which
is exactly `far2D > 144`. -/
structure Stats where
  minx : ℤ
  miny : ℤ
  maxx : ℤ
  maxy : ℤ
  bboxW : ℤ
  bboxH : ℤ
  minPoint : ℤ × ℤ
  maxPoint : ℤ × ℤ
  len2 : ℤ
  aspect : ℚ

/-- The two-pass farthest-point search (`far = first; farD = -1; …`, strict
improvement, first winner kept). -/
def farFrom (pixels : List ℕ) (w start : ℕ) : ℕ × ℤ :=
  pixels.foldl
    (fun best p =>
      let dx := ((p % w : ℕ) : ℤ) - ((start % w : ℕ) : ℤ)
      let dy := ((p / w : ℕ) : ℤ) - ((start / w : ℕ) : ℤ)
      let d2 := dx * dx + dy * dy
      if d2 > best.2 then (p, d2) else best)
    (start, -1)

/-- `componentStats` from `autoMap.js` (components are non-empty by
construction; the `[]` default is unreachable). -/
def componentStats (pixels : List ℕ) (w : ℕ) : Stats :=
  match pixels with
  | [] => ⟨0, 0, 0, 0, 1, 1, (0, 0), (0, 0), 0, 1⟩
  | p0 :: _ =>
    let xs := pixels.map fun p => ((p % w : ℕ) : ℤ)
    let ys := pixels.map fun p => ((p / w : ℕ) : ℤ)
    let x0 := ((p0 % w : ℕ) : ℤ)
    let y0 := ((p0 / w : ℕ) : ℤ)
    let minx := xs.foldl (fun m x => if x < m then x else m) x0
    let maxx := xs.foldl (fun m x => if x > m then x else m) x0
    let miny := ys.foldl (fun m y => if y < m then y else m) y0
    let maxy := ys.foldl (fun m y => if y > m then y else m) y0
    let bboxW := max 1 (maxx - minx + 1)
    let bboxH := max 1 (maxy - miny + 1)
    let far := (farFrom pixels w p0).1
    let far2 := farFrom pixels w far
    let p1 : ℤ × ℤ := (((far % w : ℕ) : ℤ), ((far / w : ℕ) : ℤ))
    let p2 : ℤ × ℤ := (((far2.1 % w : ℕ) : ℤ), ((far2.1 / w : ℕ) : ℤ))
    let minPoint := if p1.2 > p2.2 then p2 else p1
    let maxPoint := if p1.2 > p2.2 then p1 else p2
    let aspect : ℚ := ((max bboxW bboxH : ℤ) : ℚ) / ((max 1 (min bboxW bboxH) : ℤ) : ℚ)
    ⟨minx, miny, maxx, maxy, bboxW, bboxH, minPoint, maxPoint, far2.2, aspect⟩

/-- The mask colors in `Object.keys(masks)` order. -/
def maskColors : List MaskColor := [.red, .green, .blue, .yellow]

/-- The plausible snake/ladder components of the run: per color, connected
components of the opened mask (≥ 30 px) whose stats pass `aspect > 2` and
`length > 12` (the unused `color` tag is dropped). -/
def autoComponents (img : Img) : List Stats :=
  maskColors.flatMap fun c =>
    ((findComponents (maskOpened img c) 200 200 30).map fun px =>
        componentStats px 200).filter
      fun st => decide (st.aspect > 2) && decide (st.len2 > 144)

/-- Endpoint-to-cell snapping `toCell`: crop coordinates to `(u, v)`, through
the forward corner bilinear to image space, then nearest center by strict
squared-distance improvement (`bestCell = 1` when no centers exist). -/
def toCell (img : Img) (px py : ℤ) : ℤ :=
  let q := (detectBoundary img).1
  let P := bilinearInterpolateQuad q.1 q.2.1 q.2.2.1 q.2.2.2
    ((px : ℚ) / 199) ((py : ℚ) / 199)
  match autoCenters img with
  | [] => 1
  | c :: rest =>
    (rest.foldl
        (fun (best : ℤ × ℚ) ce =>
          let d2 := (P.1 - ce.x) * (P.1 - ce.x) + (P.2 - ce.y) * (P.2 - ce.y)
          if d2 < best.2 then (ce.cell, d2) else best)
        (c.cell, (P.1 - c.x) * (P.1 - c.x) + (P.2 - c.y) * (P.2 - c.y))).1

/-- The JS object assignment `map[k] = v`: overwrite in place or append. -/
def objSet (l : List (ℤ × ℤ)) (k v : ℤ) : List (ℤ × ℤ) :=
  if (l.map Prod.fst).contains k then
    l.map fun p => if p.1 = k then (k, v) else p
  else l ++ [(k, v)]

/-- The classification fold of the pipeline: raw ladder entries, raw snake
entries, and the accumulated per-component confidence (`+= 0.03` per
accepted component, span ≥ 3 required). -/
def classify (img : Img) : List (ℤ × ℤ) × List (ℤ × ℤ) × ℚ :=
  (autoComponents img).foldl
    (fun st comp =>
      let startCell := toCell img comp.minPoint.1 comp.minPoint.2
      let endCell := toCell img comp.maxPoint.1 comp.maxPoint.2
      if endCell > startCell then
        if endCell - startCell ≥ 3 then
          (objSet st.1 startCell endCell, st.2.1, st.2.2 + 3 / 100)
        else st
      else if endCell < startCell then
        if startCell - endCell ≥ 3 then
          (st.1, objSet st.2.1 startCell endCell, st.2.2 + 3 / 100)
        else st
      else st)
    ([], [], 0)

/-- The accumulated per-component confidence `slConfidence`. -/
def slConfidence (img : Img) : ℚ := (classify img).2.2

/-- The ladder map after the `dedupeMapping` consistency pass. -/
def autoLadders (img : Img) : List (ℤ × ℤ) := dedupeMapping true (classify img).1

/-- The snake map after the `dedupeMapping` consistency pass. -/
def autoSnakes (img : Img) : List (ℤ × ℤ) := dedupeMapping false (classify img).2.1

/-- `countScore = Math.min(1, (usableLadders + usableSnakes) / 12)`. -/
def countScore (img : Img) : ℚ :=
  min 1 ((((autoLadders img).length : ℚ) + ((autoSnakes img).length : ℚ)) / 12)

/-- The final confidence
`Math.max(0, Math.min(1, 0.4·boundary + 0.6·Math.min(1, sl + count·0.5)))`. -/
def autoConfidence (img : Img) : ℚ :=
  max 0 (min 1 (2 / 5 * boundaryConfidence img +
    3 / 5 * min 1 (slConfidence img + countScore img * (1 / 2))))

/-- The advisory message for confidence below 0.5. -/
def lowConfidenceMessage : String :=
  "Low confidence. You may want to refine using Mapping Mode."

/-- The success message. -/
def doneMessage : String := "Auto-detection completed."

/-- The mapping document assembled by the pipeline (the `meta` block —
free-text note, source URL, wall-clock timestamp — is presentation data and
is not modelled). -/
structure Mapping where
  version : ℕ
  corners : List Pt
  centers : List CenterEntry
  ladders : List (ℤ × ℤ)
  snakes : List (ℤ × ℤ)

/-- The structured result `{success, confidence, message, mapping}`. -/
structure DetectResult where
  success : Bool
  confidence : ℚ
  message : String
  mapping : Option Mapping

/-- The `try` body of `autoDetectMappingFromImage` after a successful image
load: always a `success := true` result carrying the assembled mapping. -/
def detectOnImage (img : Img) : DetectResult where
  success := true
  confidence := autoConfidence img
  message := if autoConfidence img < 1 / 2 then lowConfidenceMessage else doneMessage
  mapping := some
    { version := 1
      corners := detectedCorners img
      centers := autoCenters img
      ladders := autoLadders img
      snakes := autoSnakes img }

/-- `autoDetectMappingFromImage` from `autoMap.js` as a function of the image
load outcome: a load failure is caught and reported as the structured
failure result; otherwise the pipeline runs to completion. -/
def autoDetectMappingFromImage (load : Except String Img) : DetectResult :=
  match load with
  | .error e =>
    { success := false
      confidence := 0
      message := "Auto-detect failed: " ++ e
      mapping := none }
  | .ok img => detectOnImage img

/-- C4: `autoDetectMappingFromImage` always returns a structured result:
on a load failure the result is `success = false`, confidence 0, mapping
`null` with the failure message; on any loaded image the result has
`success = true` and carries the assembled mapping; and `success = false`
happens only for a load failure. -/
theorem autoDetect_error_contract :
    (∀ e : String,
      autoDetectMappingFromImage (.error e) =
        { success := false, confidence := 0,
          message := "Auto-detect failed: " ++ e, mapping := none }) ∧
    (∀ img : Img,
      (autoDetectMappingFromImage (.ok img)).success = true ∧
      (autoDetectMappingFromImage (.ok img)).mapping =
        some { version := 1, corners := detectedCorners img, centers := autoCenters img,
               ladders := autoLadders img, snakes := autoSnakes img }) ∧
    (∀ load : Except String Img,
      (autoDetectMappingFromImage load).success = false ↔ ∃ e, load = .error e) := by
  refine ⟨fun e => rfl, fun img => ⟨rfl, rfl⟩, fun load => ?_⟩
  cases load with
  | error e => simp [autoDetectMappingFromImage]
  | ok img =>
    simp only [autoDetectMappingFromImage, detectOnImage]
    constructor
    · intro h
      exact absurd h (by simp)
    · rintro ⟨e, he⟩
      exact absurd he (by simp)

/-- C6: the confidence of a successful run is exactly
`clamp₀¹(0.4·boundary + 0.6·min(1, sl + 0.5·min(1, (ladders+snakes)/12)))`,
it lies in `[0, 1]`, and the returned message is the fall-back advisory
exactly when the confidence is below 0.5. -/
theorem autoDetect_confidence_formula (img : Img) :
    (autoDetectMappingFromImage (.ok img)).confidence =
      max 0 (min 1 (2 / 5 * boundaryConfidence img +
        3 / 5 * min 1 (slConfidence img +
          min 1 ((((autoLadders img).length : ℚ) + ((autoSnakes img).length : ℚ)) / 12) *
            (1 / 2)))) ∧
    0 ≤ (autoDetectMappingFromImage (.ok img)).confidence ∧
    (autoDetectMappingFromImage (.ok img)).confidence ≤ 1 ∧
    ((autoDetectMappingFromImage (.ok img)).message = lowConfidenceMessage ↔
      (autoDetectMappingFromImage (.ok img)).confidence < 1 / 2) := by
  refine ⟨rfl, le_max_left 0 _, max_le (by norm_num) (min_le_left _ _), ?_⟩
  show (if autoConfidence img < 1 / 2 then lowConfidenceMessage else doneMessage) =
      lowConfidenceMessage ↔ autoConfidence img < 1 / 2
  split_ifs with h
  · exact iff_of_true rfl h
  · exact iff_of_false (by decide) h

end SnL
